import Mathlib

/-!
Verification development for the fingerprint cache of `playlist_genius`
(`src/services/cache.ts`, backed by the `node-cache@5.1.2` dependency).

The embedding models:
  * JavaScript values (the `criteria` objects fed to the cache) as an
    inductive type `JSValue`; objects are association lists in property
    insertion order, mirroring JS object semantics for string keys.
  * `JSON.stringify` (ECMA-404 / ECMA-262 SerializeJSONProperty, for the
    value shapes representable here), including the omission of
    `undefined`-valued object properties and `null` for `undefined`
    array elements.
  * `Array.prototype.sort()` with the default comparator (elements
    compared by their `toString` image, `undefined` sorted last) and
    `Object.entries(...).sort((a, b) => a.localeCompare(b))`.  Both JS
    sorts are stable; since a stable sort with a fixed consistent
    comparator has a unique result, they are modelled by insertion sort.
    String comparison is modelled by code-point order, which coincides
    with the UTF-16 code-unit order of JS on BMP strings and with the
    default-locale `localeCompare` order on the all-lowercase ASCII
    identifier keys that occur as criteria field names.
  * SHA-256 (`crypto.createHash("sha256").update(s).digest("hex")`)
    bit-exactly, over `Nat` with explicit reduction mod 2^32.
  * The `node-cache` store (v5.1.2): `set` (with its ECACHEFULL guard),
    `get` (with lazy expiry deletion and hit/miss counters), `del`,
    `flushAll`, `getStats`, and the option resolution done by the
    `CacheService` constructor (JS `||` defaulting).

Numbers are modelled as integers: every numeric literal appearing in the
repository criteria is integral, and `JSON.stringify` prints integral
doubles as plain integers.  Non-finite doubles, BigInt and cyclic
objects are outside the inductive value type; where a claim turns on
them this is settled textually from JS semantics, not by a theorem.
-/

/-! ### SHA-256 over Nat -/

/-- 2^32, the modulus for 32-bit words. -/
def w32 : Nat := 4294967296

/-- Right rotation of a 32-bit word (input and output < 2^32). -/
def rotr32 (n x : Nat) : Nat := ((x >>> n) ||| (x <<< (32 - n))) % w32

/-- SHA-256 lowercase sigma 0 (schedule mixing). -/
def sMix0 (x : Nat) : Nat := (rotr32 7 x) ^^^ (rotr32 18 x) ^^^ (x >>> 3)

/-- SHA-256 lowercase sigma 1 (schedule mixing). -/
def sMix1 (x : Nat) : Nat := (rotr32 17 x) ^^^ (rotr32 19 x) ^^^ (x >>> 10)

/-- SHA-256 uppercase Sigma 0 (round mixing). -/
def rMix0 (x : Nat) : Nat := (rotr32 2 x) ^^^ (rotr32 13 x) ^^^ (rotr32 22 x)

/-- SHA-256 uppercase Sigma 1 (round mixing). -/
def rMix1 (x : Nat) : Nat := (rotr32 6 x) ^^^ (rotr32 11 x) ^^^ (rotr32 25 x)

/-- SHA-256 choice function. -/
def chFn (x y z : Nat) : Nat := (x &&& y) ^^^ ((x ^^^ 4294967295) &&& z)

/-- SHA-256 majority function. -/
def majFn (x y z : Nat) : Nat := (x &&& y) ^^^ (x &&& z) ^^^ (y &&& z)

/-- The 64 SHA-256 round constants of FIPS 180-4 (in decimal; the
NIST test-vector theorem below anchors their correctness). -/
def sha256K : List Nat :=
  [1116352408, 1899447441, 3049323471, 3921009573, 961987163, 1508970993,
   2453635748, 2870763221, 3624381080, 310598401, 607225278, 1426881987,
   1925078388, 2162078206, 2614888103, 3248222580, 3835390401, 4022224774,
   264347078, 604807628, 770255983, 1249150122, 1555081692, 1996064986,
   2554220882, 2821834349, 2952996808, 3210313671, 3336571891, 3584528711,
   113926993, 338241895, 666307205, 773529912, 1294757372, 1396182291,
   1695183700, 1986661051, 2177026350, 2456956037, 2730485921, 2820302411,
   3259730800, 3345764771, 3516065817, 3600352804, 4094571909, 275423344,
   430227734, 506948616, 659060556, 883997877, 958139571, 1322822218,
   1537002063, 1747873779, 1955562222, 2024104815, 2227730452, 2361852424,
   2428436474, 2756734187, 3204031479, 3329325298]

/-- The SHA-256 initial hash value of FIPS 180-4 (in decimal). -/
def sha256Init : List Nat :=
  [1779033703, 3144134277, 1013904242, 2773480762,
   1359893119, 2600822924, 528734635, 1541459225]

/-- UTF-8 encoding of a single code point. -/
def utf8EncodeChar (n : Nat) : List Nat :=
  if n < 0x80 then [n]
  else if n < 0x800 then
    [0xC0 ||| (n >>> 6), 0x80 ||| (n &&& 0x3F)]
  else if n < 0x10000 then
    [0xE0 ||| (n >>> 12), 0x80 ||| ((n >>> 6) &&& 0x3F), 0x80 ||| (n &&& 0x3F)]
  else
    [0xF0 ||| (n >>> 18), 0x80 ||| ((n >>> 12) &&& 0x3F),
     0x80 ||| ((n >>> 6) &&& 0x3F), 0x80 ||| (n &&& 0x3F)]

/-- UTF-8 bytes of a string (Node hashes the UTF-8 encoding by default). -/
def utf8Bytes (s : String) : List Nat :=
  (s.data.map (fun c => utf8EncodeChar c.toNat)).flatten

/-- Big-endian 8-byte encoding of a length in bits. -/
def be64 (n : Nat) : List Nat :=
  [(n >>> 56) % 256, (n >>> 48) % 256, (n >>> 40) % 256, (n >>> 32) % 256,
   (n >>> 24) % 256, (n >>> 16) % 256, (n >>> 8) % 256, n % 256]

/-- SHA-256 message padding to a multiple of 64 bytes. -/
def sha256Pad (msg : List Nat) : List Nat :=
  msg ++ 0x80 :: (List.replicate ((119 - msg.length % 64) % 64) 0 ++ be64 (msg.length * 8))

/-- Group bytes into big-endian 32-bit words. -/
def bytesToWords : List Nat → List Nat
  | b0 :: b1 :: b2 :: b3 :: rest =>
    ((b0 <<< 24) ||| (b1 <<< 16) ||| (b2 <<< 8) ||| b3) :: bytesToWords rest
  | _ => []

/-- Group words into blocks of 16 (the padded message is always a
multiple of 16 words, so the catch-all is never hit on real input). -/
def wordBlocks : List Nat → List (List Nat)
  | w0 :: w1 :: w2 :: w3 :: w4 :: w5 :: w6 :: w7 ::
    w8 :: w9 :: w10 :: w11 :: w12 :: w13 :: w14 :: w15 :: rest =>
    [w0, w1, w2, w3, w4, w5, w6, w7, w8, w9, w10, w11, w12, w13, w14, w15] :: wordBlocks rest
  | _ => []

/-- Extend the 16-word message schedule by `n` further words. -/
def extendW : List Nat → Nat → List Nat
  | ws, 0 => ws
  | ws, n + 1 =>
    let t := ws.length
    let nw := (sMix1 (ws.getD (t - 2) 0) + ws.getD (t - 7) 0 +
               sMix0 (ws.getD (t - 15) 0) + ws.getD (t - 16) 0) % w32
    extendW (ws ++ [nw]) n

/-- The 64 SHA-256 compression rounds on working state [a,b,c,d,e,f,g,h]. -/
def sha256Rounds : List Nat → List Nat → List Nat → List Nat
  | k :: ks, w :: ws, [a, b, c, d, e, f, g, h] =>
    let t1 := (h + rMix1 e + chFn e f g + k + w) % w32
    let t2 := (rMix0 a + majFn a b c) % w32
    sha256Rounds ks ws [(t1 + t2) % w32, a, b, c, (d + t1) % w32, e, f, g]
  | _, _, hs => hs

/-- Compress one 16-word block into the running hash. -/
def sha256Block (hs : List Nat) (block : List Nat) : List Nat :=
  List.zipWith (fun a b => (a + b) % w32) hs (sha256Rounds sha256K (extendW block 48) hs)

/-- Lowercase hex digit. -/
def hexDigitChar (n : Nat) : Char := Char.ofNat (if n < 10 then 48 + n else 87 + n)

/-- Lowercase 8-digit hex rendering of a 32-bit word. -/
def word2hex (x : Nat) : String :=
  String.mk ((List.range 8).map fun i => hexDigitChar ((x >>> (28 - 4 * i)) &&& 15))

/-- SHA-256 hex digest of a string, as produced by
`crypto.createHash("sha256").update(s).digest("hex")`. -/
def sha256Hex (s : String) : String :=
  String.join (((wordBlocks (bytesToWords (sha256Pad (utf8Bytes s)))).foldl
    sha256Block sha256Init).map word2hex)

/-! ### JavaScript values -/

/-- JSON-representable JavaScript values plus `undefined`.  Objects are
association lists of own enumerable string-keyed properties in insertion
order (criteria keys in this repository are non-numeric identifiers, for
which JS preserves insertion order).  Numbers are restricted to the
integral doubles that actually occur as criteria values. -/
inductive JSValue where
  | str (s : String)
  | num (n : Int)
  | bool (b : Bool)
  | null
  | undef
  | arr (xs : List JSValue)
  | obj (fs : List (String × JSValue))

/-- A criteria argument: a JS object given by its entries in insertion
order, as observed by `Object.entries`. -/
abbrev JSObject := List (String × JSValue)

/-- JSON string escaping as performed by `JSON.stringify` (QuoteJSONString). -/
def escapeChar (c : Char) : String :=
  if c = '"' then "\\\""
  else if c = '\\' then "\\\\"
  else if c.toNat = 8 then "\\b"
  else if c.toNat = 9 then "\\t"
  else if c.toNat = 10 then "\\n"
  else if c.toNat = 12 then "\\f"
  else if c.toNat = 13 then "\\r"
  else if c.toNat < 32 then
    "\\u00" ++ String.mk [hexDigitChar (c.toNat >>> 4), hexDigitChar (c.toNat &&& 15)]
  else String.mk [c]

/-- Quote a string as a JSON string literal. -/
def quoteJson (s : String) : String := "\"" ++ String.join (s.data.map escapeChar) ++ "\""

mutual

/-- ECMA-262 SerializeJSONProperty: the JSON text of a value, or `none`
for `undefined` (whose object properties are omitted). -/
def serializeJSONProperty : JSValue → Option String
  | .undef => none
  | .null => some "null"
  | .bool b => some (if b then "true" else "false")
  | .num n => some (toString n)
  | .str s => some (quoteJson s)
  | .arr xs => some ("[" ++ String.intercalate "," (serializeElems xs) ++ "]")
  | .obj fs => some ("\x7b" ++ String.intercalate "," (serializeFields fs) ++ "\x7d")

/-- Array elements: `undefined` serializes as `null`. -/
def serializeElems : List JSValue → List String
  | [] => []
  | x :: xs => (serializeJSONProperty x).getD "null" :: serializeElems xs

/-- Object members: properties with `undefined` values are omitted. -/
def serializeFields : List (String × JSValue) → List String
  | [] => []
  | (k, v) :: fs =>
    match serializeJSONProperty v with
    | none => serializeFields fs
    | some s => (quoteJson k ++ ":" ++ s) :: serializeFields fs

end

/-- JSON text of a JS object, i.e. `JSON.stringify` applied to it. -/
def stringifyObj (fs : JSObject) : String :=
  "\x7b" ++ String.intercalate "," (serializeFields fs) ++ "\x7d"

/-- Whether a value is `undefined`. -/
def isUndefB : JSValue → Bool
  | .undef => true
  | _ => false

/-- The JSON member text of one object property (total version; only
applied to non-`undefined` properties). -/
def fieldText (q : String × JSValue) : String :=
  quoteJson q.1 ++ ":" ++ (serializeJSONProperty q.2).getD "undefined"

mutual

/-- JS `ToString` of a value, as used by the default `Array.prototype.sort`
comparator. -/
def jsToString : JSValue → String
  | .str s => s
  | .num n => toString n
  | .bool b => if b then "true" else "false"
  | .null => "null"
  | .undef => "undefined"
  | .arr xs => String.intercalate "," (joinElems xs)
  | .obj _ => "[object Object]"

/-- `Array.prototype.toString` joins elements with commas; `null` and
`undefined` elements contribute the empty string. -/
def joinElems : List JSValue → List String
  | [] => []
  | .null :: xs => "" :: joinElems xs
  | .undef :: xs => "" :: joinElems xs
  | x :: xs => jsToString x :: joinElems xs

end

/-- Lexicographic comparison of character lists by code point (the JS
string order on BMP strings). -/
def charListLeB : List Char → List Char → Bool
  | [], _ => true
  | _ :: _, [] => false
  | a :: as, b :: bs =>
    if a.toNat < b.toNat then true
    else if b.toNat < a.toNat then false
    else charListLeB as bs

/-- String order used by the JS sorts in `generateCacheKey`. -/
def strLeB (a b : String) : Bool := charListLeB a.data b.data

/-- Default-comparator order of `Array.prototype.sort`: `undefined`
elements go last, all other elements are compared by their `ToString`
image (code-unit order; ties keep original order, hence less-or-equal). -/
def jsSortLeB (a b : JSValue) : Bool :=
  match a, b with
  | .undef, .undef => true
  | .undef, _ => false
  | _, .undef => true
  | _, _ => strLeB (jsToString a) (jsToString b)

/-- The sort relation for JS default array sort. -/
def jsSortRel (a b : JSValue) : Prop := jsSortLeB a b = true

instance : DecidableRel jsSortRel := fun _ _ => inferInstanceAs (Decidable (_ = true))

/-- `[...value].sort()`: JS sort is stable, and a stable sort by a fixed
consistent comparator has a unique result, so insertion sort computes it. -/
def jsArraySort (xs : List JSValue) : List JSValue := List.insertionSort jsSortRel xs

/-- Order used by `.sort(([a], [b]) => a.localeCompare(b))` on the entry
lists: entries compared by key (code-point order, which agrees with the
default-locale collation on the identifier keys occurring here). -/
def entryLe (x y : String × JSValue) : Prop := strLeB x.1 y.1 = true

instance : DecidableRel entryLe := fun _ _ => inferInstanceAs (Decidable (_ = true))

instance : IsTotal (String × JSValue) entryLe := by
  constructor
  intro a b
  show charListLeB a.1.data b.1.data = true ∨ charListLeB b.1.data a.1.data = true
  generalize a.1.data = as
  generalize b.1.data = bs
  induction as generalizing bs with
  | nil => exact Or.inl rfl
  | cons x xs ih =>
    cases bs with
    | nil => exact Or.inr rfl
    | cons y ys =>
      by_cases h1 : x.toNat < y.toNat
      · exact Or.inl (by simp [charListLeB, h1])
      · by_cases h2 : y.toNat < x.toNat
        · exact Or.inr (by simp [charListLeB, h1, h2])
        · rcases ih ys with h | h
          · exact Or.inl (by simp [charListLeB, h1, h2, h])
          · exact Or.inr (by simp [charListLeB, h1, h2, h])

instance : IsTrans (String × JSValue) entryLe := by
  constructor
  have key : ∀ (as bs cs : List Char), charListLeB as bs = true →
      charListLeB bs cs = true → charListLeB as cs = true := by
    intro as
    induction as with
    | nil => intro bs cs _ _; rfl
    | cons x xs ih =>
      intro bs cs hab hbc
      cases bs with
      | nil => simp [charListLeB] at hab
      | cons y ys =>
        cases cs with
        | nil => simp [charListLeB] at hbc
        | cons z zs =>
          simp only [charListLeB] at hab hbc ⊢
          split_ifs at hab hbc ⊢ <;>
            first
              | rfl
              | omega
              | exact ih ys zs hab hbc
  intro a b c hab hbc
  exact key a.1.data b.1.data c.1.data hab hbc

/-- The body of the `reduce` in `generateCacheKey`: array values are
copied and sorted with the default comparator, all other values are kept
unchanged. -/
def normalizeEntry : String × JSValue → String × JSValue
  | (k, .arr xs) => (k, .arr (jsArraySort xs))
  | (k, v) => (k, v)

/-- The `sortedCriteria` object built by `generateCacheKey`:
`Object.entries(criteria)` sorted by key, then each array-valued entry
sorted, assembled into an object in that key order.  Note that this does
not recurse into nested objects or nested arrays. -/
def sortedCriteria (criteria : JSObject) : JSObject :=
  (List.insertionSort entryLe criteria).map normalizeEntry

/-- `CacheService.generateCacheKey` (src/services/cache.ts:17-36): the
SHA-256 hex digest of `JSON.stringify(sortedCriteria)`. -/
def generateCacheKey (criteria : JSObject) : String :=
  sha256Hex (stringifyObj (sortedCriteria criteria))

/-! ### The node-cache store (node-cache@5.1.2) -/

/-- A stored wrapper: expiration timestamp `t` in milliseconds (0 means
unlimited) and the stored value (`useClones:false`, so the value itself). -/
structure NCEntry where
  t : Nat
  v : JSValue

/-- The node-cache statistics record (`keys` is derived from the store:
node-cache keeps it equal to the number of stored keys at all times). -/
structure NCStats where
  hits : Nat
  misses : Nat
  ksize : Nat
  vsize : Nat

/-- The internal store: `this.data` as an association list in property
insertion order, plus the statistics. -/
structure NCState where
  data : List (String × NCEntry)
  stats : NCStats

/-- Resolved node-cache options as built by the CacheService constructor. -/
structure NCOptions where
  stdTTL : Nat
  checkperiod : Nat
  maxKeys : Int
  useClones : Bool
  deleteOnExpire : Bool

/-- node-cache `_getValLength` for the option defaults used here
(`forceString:false`, `arrayValueSize:40`, `objectValueSize:80`). -/
def valLength : JSValue → Nat
  | .str s => s.length
  | .arr xs => 40 * xs.length
  | .num _ => 8
  | .bool _ => 8
  | .obj fs => 80 * fs.length
  | .null => 0
  | .undef => 0

/-- `this.data[key]`: property access on the store. -/
def getData : List (String × NCEntry) → String → Option NCEntry
  | [], _ => none
  | (k1, e) :: rest, k => if k1 = k then some e else getData rest k

/-- `this.data[key] = entry`: overwrite in place if the key exists,
otherwise add the property at the end (JS insertion order). -/
def setData : List (String × NCEntry) → String → NCEntry → List (String × NCEntry)
  | [], k, e => [(k, e)]
  | (k1, e1) :: rest, k, e =>
    if k1 = k then (k, e) :: rest else (k1, e1) :: setData rest k e

/-- `delete this.data[key]`: remove the binding for `key`. -/
def eraseData : List (String × NCEntry) → String → List (String × NCEntry)
  | [], _ => []
  | (k1, e1) :: rest, k => if k1 = k then rest else (k1, e1) :: eraseData rest k

/-- node-cache `_wrap` livetime for a `set` without explicit ttl: uses
`options.stdTTL`; 0 means unlimited, otherwise `now + stdTTL * 1000`. -/
def ncWrapT (o : NCOptions) (now : Nat) : Nat :=
  if o.stdTTL = 0 then 0 else now + o.stdTTL * 1000

/-- node-cache `set(key, value)` (no per-call ttl).  If `maxKeys > -1`
and storing would make `keys + 1 > maxKeys`, it throws ECACHEFULL — this
guard runs before the existing-key check, so it also fires when merely
overwriting at capacity.  Otherwise it stores the wrapped value and
updates `vsize`/`ksize`. -/
def ncSet (o : NCOptions) (now : Nat) (k : String) (v : JSValue) (st : NCState) :
    Except String NCState :=
  if o.maxKeys > -1 ∧ (st.data.length : Int) + 1 > o.maxKeys then
    .error "ECACHEFULL"
  else
    match getData st.data k with
    | some old =>
      .ok ⟨setData st.data k ⟨ncWrapT o now, v⟩,
        ⟨st.stats.hits, st.stats.misses, st.stats.ksize,
         st.stats.vsize - valLength old.v + valLength v⟩⟩
    | none =>
      .ok ⟨st.data ++ [(k, ⟨ncWrapT o now, v⟩)],
        ⟨st.stats.hits, st.stats.misses, st.stats.ksize + k.length,
         st.stats.vsize + valLength v⟩⟩

/-- node-cache `del(key)`: removes the entry if present (updating the
size counters), otherwise does nothing. -/
def ncDel (k : String) (st : NCState) : NCState :=
  match getData st.data k with
  | some e =>
    ⟨eraseData st.data k,
     ⟨st.stats.hits, st.stats.misses, st.stats.ksize - k.length,
      st.stats.vsize - valLength e.v⟩⟩
  | none => st

/-- node-cache `get(key)`: `_check` treats an entry as expired when
`t ≠ 0 ∧ t < now`; with `deleteOnExpire:true` (the default) the expired
entry is deleted on the spot and the call counts as a miss.  A live
entry is returned as-is (`useClones:false`) and counts as a hit. -/
def ncGet (now : Nat) (k : String) (st : NCState) : Option JSValue × NCState :=
  match getData st.data k with
  | some e =>
    if e.t ≠ 0 ∧ e.t < now then
      let st1 := ncDel k st
      (none, ⟨st1.data,
        ⟨st1.stats.hits, st1.stats.misses + 1, st1.stats.ksize, st1.stats.vsize⟩⟩)
    else
      (some e.v, ⟨st.data,
        ⟨st.stats.hits + 1, st.stats.misses, st.stats.ksize, st.stats.vsize⟩⟩)
  | none =>
    (none, ⟨st.data,
      ⟨st.stats.hits, st.stats.misses + 1, st.stats.ksize, st.stats.vsize⟩⟩)

/-- node-cache `flushAll()`: empties the data and resets all statistics. -/
def ncFlushAll : NCState := ⟨[], ⟨0, 0, 0, 0⟩⟩

/-! ### The CacheService wrapper (src/services/cache.ts) -/

/-- `CacheOptions` from src/types: all fields optional. -/
structure CacheOptions where
  stdTTL : Option Nat := none
  checkperiod : Option Nat := none
  maxKeys : Option Int := none

/-- JS `x || d` for an optional numeric option: an absent or zero
(falsy) value yields the default. -/
def jsOrNat (o : Option Nat) (d : Nat) : Nat :=
  match o with
  | some n => if n = 0 then d else n
  | none => d

/-- JS `x || d` on the integer-valued `maxKeys` option. -/
def jsOrInt (o : Option Int) (d : Int) : Int :=
  match o with
  | some n => if n = 0 then d else n
  | none => d

/-- A `CacheService` instance: the resolved constructor options and the
current node-cache state. -/
structure CacheService where
  opts : NCOptions
  st : NCState

namespace CacheService

/-- The constructor (src/services/cache.ts:8-15): defaults
`stdTTL || 3600`, `checkperiod || 600`, `maxKeys || 1000`,
`useClones:false`; node-cache starts empty with zeroed stats. -/
def new (co : CacheOptions) : CacheService :=
  ⟨⟨jsOrNat co.stdTTL 3600, jsOrNat co.checkperiod 600, jsOrInt co.maxKeys 1000,
    false, true⟩,
   ⟨[], ⟨0, 0, 0, 0⟩⟩⟩

/-- `get(criteria)` (src/services/cache.ts:39-42). -/
def get (now : Nat) (cs : CacheService) (criteria : JSObject) :
    Option JSValue × CacheService :=
  let r := ncGet now (generateCacheKey criteria) cs.st
  (r.1, ⟨cs.opts, r.2⟩)

/-- `set(criteria, result)` (src/services/cache.ts:45-48); the
ECACHEFULL throw from node-cache propagates to the caller. -/
def set (now : Nat) (cs : CacheService) (criteria : JSObject) (v : JSValue) :
    Except String CacheService :=
  match ncSet cs.opts now (generateCacheKey criteria) v cs.st with
  | .ok st1 => .ok ⟨cs.opts, st1⟩
  | .error e => .error e

/-- `invalidate(criteria)` (src/services/cache.ts:51-54). -/
def invalidate (cs : CacheService) (criteria : JSObject) : CacheService :=
  ⟨cs.opts, ncDel (generateCacheKey criteria) cs.st⟩

/-- `clear()` (src/services/cache.ts:57-59). -/
def clear (cs : CacheService) : CacheService := ⟨cs.opts, ncFlushAll⟩

/-- The record returned by `getStats()` (src/services/cache.ts:62-70). -/
structure Stats where
  keys : Nat
  hits : Nat
  misses : Nat
  ksize : Nat
  vsize : Nat

/-- `getStats()`: `keys` is `this.cache.keys().length`, the rest come
from the node-cache statistics. -/
def getStats (cs : CacheService) : Stats :=
  ⟨cs.st.data.length, cs.st.stats.hits, cs.st.stats.misses,
   cs.st.stats.ksize, cs.st.stats.vsize⟩

/-- Run a `set` and keep the resulting state, or the unchanged state if
node-cache threw (convenience for stating concrete scenarios). -/
def setD (now : Nat) (cs : CacheService) (criteria : JSObject) (v : JSValue) :
    CacheService :=
  (set now cs criteria v).toOption.getD cs

end CacheService

/-! ### Concrete scenarios used by the claim theorems -/

/-- Criteria with a nested mapping, as in the repository test
"should handle nested arrays and objects". -/
def nestedCritA : JSObject :=
  [("genres", .arr [.str "rock"]),
   ("yearRange", .obj [("start", .num 2020), ("end", .num 2024)])]

/-- The same criteria with the keys of the nested `yearRange` mapping
permuted (a depth-2 permutation of `nestedCritA`). -/
def nestedCritB : JSObject :=
  [("yearRange", .obj [("end", .num 2024), ("start", .num 2020)]),
   ("genres", .arr [.str "rock"])]

/-- The tagged descriptor built by `PlaylistGenius.generatePlaylistSuggestions`
(src/index.ts:40-43) for criteria `genres:["rock","indie"], mood:"energetic"`
under kind "playlist". -/
def taggedKey1 : JSObject :=
  [("type", .str "playlist"),
   ("criteria", .obj [("genres", .arr [.str "rock", .str "indie"]),
                      ("mood", .str "energetic")])]

/-- The tagged descriptor for the permuted criteria
`mood:"energetic", genres:["indie","rock"]` under kind "playlist". -/
def taggedKey2 : JSObject :=
  [("type", .str "playlist"),
   ("criteria", .obj [("mood", .str "energetic"),
                      ("genres", .arr [.str "indie", .str "rock"])])]

/-- A stand-in stored GenerationResult. -/
def storedVal : JSValue :=
  .obj [("songs", .arr []), ("explanation", .str "e"), ("tags", .arr [])]

/-- A fresh default cache (constructor called with no options). -/
def defaultCache : CacheService := CacheService.new ⟨none, none, none⟩

/-- The default cache after storing `storedVal` under `taggedKey1` at time 0. -/
def taggedCache : CacheService := CacheService.setD 0 defaultCache taggedKey1 storedVal

/-- A cache constructed with `maxKeys:1` (the constructor's `|| 1000`
keeps an explicit 1). -/
def tinyCache : CacheService := CacheService.new ⟨none, none, some 1⟩

/-- A simple criteria object. -/
def moodCalm : JSObject := [("mood", .str "calm")]

/-- A second criteria object with a different normalized form. -/
def moodHappy : JSObject := [("mood", .str "happy")]

/-- The `maxKeys:1` cache filled to capacity with one entry. -/
def tinyFull : CacheService := CacheService.setD 0 tinyCache moodCalm (.str "v1")

/-- A cache constructed with `stdTTL:1` (one second). -/
def ttlCache : CacheService := CacheService.new ⟨some 1, none, none⟩

/-- The `stdTTL:1` cache after storing a value at time 0 (milliseconds). -/
def ttlStored : CacheService := CacheService.setD 0 ttlCache moodCalm (.str "v")

/-- Default cache with one entry, for the determinism/roundtrip witnesses. -/
def roundtripCache : CacheService := CacheService.setD 0 defaultCache moodCalm (.str "r")

/-- Default cache after one set at time 0. -/
def onceSet : CacheService := CacheService.setD 0 defaultCache moodCalm (.str "v1")

/-- Default cache after set at 0 and an overwrite at 5. -/
def overwritten : CacheService := CacheService.setD 5 onceSet moodCalm (.str "v2")

/-! ### Store lemmas -/

theorem getData_eq_none_iff (d : List (String × NCEntry)) (k : String) :
    getData d k = none ↔ k ∉ d.map Prod.fst := by
  induction d with
  | nil => simp [getData]
  | cons p rest ih =>
    obtain ⟨k1, e1⟩ := p
    by_cases h : k1 = k
    · subst h; simp [getData]
    · simp [getData, h, ih, Ne.symm h]

theorem getData_setData_self (d : List (String × NCEntry)) (k : String) (e : NCEntry) :
    getData (setData d k e) k = some e := by
  induction d with
  | nil => simp [setData, getData]
  | cons p rest ih =>
    obtain ⟨k1, e1⟩ := p
    by_cases h : k1 = k
    · simp [setData, h, getData]
    · simp [setData, h, getData, ih]

theorem getData_setData_ne (d : List (String × NCEntry)) (k : String) (e : NCEntry)
    {k2 : String} (h : k2 ≠ k) :
    getData (setData d k e) k2 = getData d k2 := by
  induction d with
  | nil => simp [setData, getData, Ne.symm h]
  | cons p rest ih =>
    obtain ⟨k1, e1⟩ := p
    by_cases h1 : k1 = k
    · subst h1
      simp [setData, getData, Ne.symm h]
    · simp only [setData, if_neg h1, getData]
      by_cases h2 : k1 = k2 <;> simp [h2, ih]

theorem length_setData_found (d : List (String × NCEntry)) (k : String) (e : NCEntry)
    (h : getData d k ≠ none) :
    (setData d k e).length = d.length := by
  induction d with
  | nil => simp [getData] at h
  | cons p rest ih =>
    obtain ⟨k1, e1⟩ := p
    by_cases h1 : k1 = k
    · simp [setData, h1]
    · simp only [getData, if_neg h1] at h
      simp [setData, h1, ih h]

theorem map_fst_setData_found (d : List (String × NCEntry)) (k : String) (e : NCEntry)
    (h : getData d k ≠ none) :
    (setData d k e).map Prod.fst = d.map Prod.fst := by
  induction d with
  | nil => simp [getData] at h
  | cons p rest ih =>
    obtain ⟨k1, e1⟩ := p
    by_cases h1 : k1 = k
    · simp [setData, h1]
    · simp only [getData, if_neg h1] at h
      simp [setData, h1, ih h]

theorem getData_append_of_some (d d2 : List (String × NCEntry)) (k : String) (e : NCEntry)
    (h : getData d k = some e) :
    getData (d ++ d2) k = some e := by
  induction d with
  | nil => simp [getData] at h
  | cons p rest ih =>
    obtain ⟨k1, e1⟩ := p
    by_cases h1 : k1 = k
    · simp only [getData, if_pos h1] at h
      simp [getData, h1, h]
    · simp only [getData, if_neg h1] at h
      simp [getData, h1, ih h]

theorem getData_append_of_none (d d2 : List (String × NCEntry)) (k : String)
    (h : getData d k = none) :
    getData (d ++ d2) k = getData d2 k := by
  induction d with
  | nil => simp
  | cons p rest ih =>
    obtain ⟨k1, e1⟩ := p
    by_cases h1 : k1 = k
    · simp [getData, h1] at h
    · simp only [getData, if_neg h1] at h
      simp [getData, h1, ih h]

theorem getData_append_single_ne (d : List (String × NCEntry)) (k : String) (e : NCEntry)
    {k2 : String} (h : k2 ≠ k) :
    getData (d ++ [(k, e)]) k2 = getData d k2 := by
  cases hg : getData d k2 with
  | some e2 => exact getData_append_of_some d _ k2 e2 hg
  | none =>
    rw [getData_append_of_none d _ k2 hg]
    simp [getData, hg, Ne.symm h]

theorem getData_eraseData_ne (d : List (String × NCEntry)) (k : String)
    {k2 : String} (h : k2 ≠ k) :
    getData (eraseData d k) k2 = getData d k2 := by
  induction d with
  | nil => simp [eraseData]
  | cons p rest ih =>
    obtain ⟨k1, e1⟩ := p
    by_cases h1 : k1 = k
    · subst h1
      simp [eraseData, getData, Ne.symm h]
    · simp only [eraseData, if_neg h1, getData]
      by_cases h2 : k1 = k2 <;> simp [h2, ih]

theorem getData_eraseData_self (d : List (String × NCEntry)) (k : String)
    (hnd : (d.map Prod.fst).Nodup) :
    getData (eraseData d k) k = none := by
  induction d with
  | nil => simp [eraseData, getData]
  | cons p rest ih =>
    obtain ⟨k1, e1⟩ := p
    simp only [List.map_cons, List.nodup_cons] at hnd
    by_cases h1 : k1 = k
    · subst h1
      simpa [eraseData, getData_eq_none_iff] using hnd.1
    · simp [eraseData, h1, getData, ih hnd.2]

theorem map_fst_eraseData_sublist (d : List (String × NCEntry)) (k : String) :
    ((eraseData d k).map Prod.fst).Sublist (d.map Prod.fst) := by
  induction d with
  | nil => simp [eraseData]
  | cons p rest ih =>
    obtain ⟨k1, e1⟩ := p
    by_cases h1 : k1 = k
    · simp only [eraseData, if_pos h1, List.map_cons]
      exact List.sublist_cons_self _ _
    · simp only [eraseData, if_neg h1, List.map_cons]
      exact ih.cons₂ k1

/-! ### Operation specifications -/

theorem ncSet_ok_spec {o : NCOptions} {now : Nat} {k : String} {v : JSValue}
    {st st1 : NCState} (h : ncSet o now k v st = .ok st1) :
    getData st1.data k = some ⟨ncWrapT o now, v⟩ ∧
    (∀ k2, k2 ≠ k → getData st1.data k2 = getData st.data k2) ∧
    ((st.data.map Prod.fst).Nodup → (st1.data.map Prod.fst).Nodup) ∧
    (getData st.data k ≠ none → st1.data.length = st.data.length) ∧
    (getData st.data k = none → st1.data.length = st.data.length + 1) := by
  unfold ncSet at h
  split at h
  · simp at h
  · cases hg : getData st.data k with
    | some old =>
      simp only [hg] at h
      injection h with h1
      subst h1
      refine ⟨getData_setData_self _ _ _, fun k2 hk2 => getData_setData_ne _ _ _ hk2,
        ?_, ?_, ?_⟩
      · intro hnd
        rw [map_fst_setData_found _ _ _ (by simp [hg])]
        exact hnd
      · intro _
        exact length_setData_found _ _ _ (by simp [hg])
      · intro hnone
        exact absurd hnone (by simp [hg])
    | none =>
      simp only [hg] at h
      injection h with h1
      subst h1
      have hk : k ∉ st.data.map Prod.fst := (getData_eq_none_iff _ _).mp hg
      refine ⟨?_, fun k2 hk2 => getData_append_single_ne _ _ _ hk2, ?_, ?_, ?_⟩
      · rw [getData_append_of_none _ _ _ hg]
        simp [getData]
      · intro hnd
        simp only [List.map_append, List.map_cons, List.map_nil]
        rw [List.nodup_append]
        refine ⟨hnd, by simp, ?_⟩
        intro a ha hb
        simp only [List.mem_singleton] at hb
        exact hk (hb ▸ ha)
      · intro hsome
        exact absurd rfl hsome
      · intro _
        simp

theorem ncSet_error_iff {o : NCOptions} {now : Nat} {k : String} {v : JSValue}
    {st : NCState} {s : String} :
    ncSet o now k v st = .error s ↔
      ((o.maxKeys > -1 ∧ (st.data.length : Int) + 1 > o.maxKeys) ∧ s = "ECACHEFULL") := by
  unfold ncSet
  split
  · simp only [Except.error.injEq]
    constructor
    · intro h; exact ⟨by assumption, h.symm⟩
    · intro h; exact h.2.symm
  · cases getData st.data k <;> simp_all

theorem ncSet_ok_of_room {o : NCOptions} {now : Nat} (k : String) (v : JSValue)
    {st : NCState} (h : ¬(o.maxKeys > -1 ∧ (st.data.length : Int) + 1 > o.maxKeys)) :
    ∃ st1, ncSet o now k v st = .ok st1 := by
  unfold ncSet
  rw [if_neg h]
  cases getData st.data k <;> exact ⟨_, rfl⟩

theorem set_ok_spec {now : Nat} {cs : CacheService} {c : JSObject} {v : JSValue}
    {cs1 : CacheService} (h : CacheService.set now cs c v = .ok cs1) :
    cs1.opts = cs.opts ∧ ncSet cs.opts now (generateCacheKey c) v cs.st = .ok cs1.st := by
  unfold CacheService.set at h
  cases hg : ncSet cs.opts now (generateCacheKey c) v cs.st with
  | ok st1 =>
    simp only [hg] at h
    injection h with h1
    subst h1
    exact ⟨rfl, rfl⟩
  | error e => simp [hg] at h

/-! ### Stable sort versus filtering (for the undefined-field claim) -/

theorem serializeJSONProperty_eq_none_iff (v : JSValue) :
    serializeJSONProperty v = none ↔ isUndefB v = true := by
  cases v <;> simp [serializeJSONProperty, isUndefB]

theorem serializeFields_eq (fs : List (String × JSValue)) :
    serializeFields fs = (fs.filter fun q => !isUndefB q.2).map fieldText := by
  induction fs with
  | nil => simp [serializeFields]
  | cons q rest ih =>
    obtain ⟨k, v⟩ := q
    cases v <;>
      simp [serializeFields, serializeJSONProperty, isUndefB, fieldText, ih, List.filter_cons]

theorem orderedInsert_eq_cons {α : Type} (r : α → α → Prop) [DecidableRel r]
    (a : α) (l : List α) (h : ∀ z ∈ l, r a z) :
    List.orderedInsert r a l = a :: l := by
  cases l with
  | nil => rfl
  | cons b bs => simp [List.orderedInsert, h b (by simp)]

theorem filter_orderedInsert_pos {α : Type} (r : α → α → Prop) [DecidableRel r]
    [IsTrans α r] (p : α → Bool) (a : α) (l : List α)
    (hl : l.Sorted r) (hpa : p a = true) :
    (List.orderedInsert r a l).filter p = List.orderedInsert r a (l.filter p) := by
  induction l with
  | nil => simp [List.orderedInsert, hpa]
  | cons b bs ih =>
    by_cases hr : r a b
    · rw [List.orderedInsert_of_le r _ hr]
      by_cases hb : p b = true
      · simp [List.filter_cons, hpa, hb, List.orderedInsert, hr]
      · simp only [Bool.not_eq_true] at hb
        simp only [List.filter_cons, hpa, hb, if_pos, if_neg, Bool.false_eq_true,
          ite_false, ite_true]
        rw [orderedInsert_eq_cons]
        intro z hz
        exact Trans.trans hr (List.rel_of_sorted_cons hl z (List.mem_of_mem_filter hz))
    · simp only [List.orderedInsert, if_neg hr]
      by_cases hb : p b = true
      · simp [List.filter_cons, hpa, hb, ih hl.of_cons, List.orderedInsert, hr]
      · simp only [Bool.not_eq_true] at hb
        simp [List.filter_cons, hb, ih hl.of_cons]

theorem filter_orderedInsert_neg {α : Type} (r : α → α → Prop) [DecidableRel r]
    (p : α → Bool) (a : α) (l : List α) (hpa : p a = false) :
    (List.orderedInsert r a l).filter p = l.filter p := by
  induction l with
  | nil => simp [List.orderedInsert, hpa]
  | cons b bs ih =>
    by_cases hr : r a b
    · simp [List.orderedInsert, hr, List.filter_cons, hpa]
    · by_cases hb : p b = true <;>
        simp [List.orderedInsert, hr, List.filter_cons, hpa, hb, ih]

theorem filter_insertionSort {α : Type} (r : α → α → Prop) [DecidableRel r]
    [IsTotal α r] [IsTrans α r] (p : α → Bool) (l : List α) :
    (List.insertionSort r l).filter p = List.insertionSort r (l.filter p) := by
  induction l with
  | nil => simp
  | cons a as ih =>
    by_cases ha : p a = true
    · simp only [List.insertionSort, List.filter_cons, ha, ite_true]
      rw [filter_orderedInsert_pos r p a _ (List.sorted_insertionSort r as) ha, ih]
    · simp only [Bool.not_eq_true] at ha
      simp only [List.insertionSort, List.filter_cons, ha, Bool.false_eq_true, ite_false]
      rw [filter_orderedInsert_neg r p a _ ha, ih]

theorem isUndefB_normalizeEntry (q : String × JSValue) :
    isUndefB (normalizeEntry q).2 = isUndefB q.2 := by
  obtain ⟨k, v⟩ := q
  cases v <;> simp [normalizeEntry, isUndefB]

theorem serializeFields_sortedCriteria_append_undef (l1 l2 : JSObject) (f : String) :
    serializeFields (sortedCriteria (l1 ++ (f, JSValue.undef) :: l2)) =
      serializeFields (sortedCriteria (l1 ++ l2)) := by
  have hfilter : ∀ L : JSObject,
      ((List.insertionSort entryLe L).map normalizeEntry).filter (fun q => !isUndefB q.2) =
        (List.insertionSort entryLe (L.filter fun q => !isUndefB q.2)).map normalizeEntry := by
    intro L
    rw [List.filter_map]
    have hcongr : ((List.insertionSort entryLe L).filter
        ((fun q => !isUndefB q.2) ∘ normalizeEntry)) =
        ((List.insertionSort entryLe L).filter (fun q => !isUndefB q.2)) :=
      List.filter_congr (fun x _ => by
        simp [Function.comp, isUndefB_normalizeEntry])
    rw [hcongr, filter_insertionSort entryLe _ L]
  rw [serializeFields_eq, serializeFields_eq]
  unfold sortedCriteria
  rw [hfilter, hfilter]
  have hsame : ((l1 ++ (f, JSValue.undef) :: l2).filter fun q => !isUndefB q.2) =
      ((l1 ++ l2).filter fun q => !isUndefB q.2) := by
    simp [List.filter_append, List.filter_cons, isUndefB]
  rw [hsame]

theorem get_fst (now : Nat) (cs : CacheService) (c : JSObject) :
    (CacheService.get now cs c).1 =
      match getData cs.st.data (generateCacheKey c) with
      | none => none
      | some e => if e.t ≠ 0 ∧ e.t < now then none else some e.v := by
  unfold CacheService.get ncGet
  cases hg : getData cs.st.data (generateCacheKey c) with
  | none => simp [hg]
  | some e =>
    by_cases he : e.t ≠ 0 ∧ e.t < now <;> simp [hg, he]

theorem setD_getData_ne (now : Nat) (cs : CacheService) (c : JSObject) (v : JSValue)
    {k2 : String} (hne : k2 ≠ generateCacheKey c) :
    getData (CacheService.setD now cs c v).st.data k2 = getData cs.st.data k2 := by
  unfold CacheService.setD
  cases hs : CacheService.set now cs c v with
  | ok cs1 =>
    simp only [Except.toOption, Option.getD]
    exact ((ncSet_ok_spec (set_ok_spec hs).2).2.1) k2 hne
  | error e => simp [Except.toOption]

theorem setD_data_nodup (now : Nat) (cs : CacheService) (c : JSObject) (v : JSValue)
    (hnd : (cs.st.data.map Prod.fst).Nodup) :
    ((CacheService.setD now cs c v).st.data.map Prod.fst).Nodup := by
  unfold CacheService.setD
  cases hs : CacheService.set now cs c v with
  | ok cs1 =>
    simp only [Except.toOption, Option.getD]
    exact ((ncSet_ok_spec (set_ok_spec hs).2).2.2.1) hnd
  | error e =>
    simp only [Except.toOption, Option.getD]
    exact hnd

theorem invalidate_getData_self (cs : CacheService) (c : JSObject)
    (hnd : (cs.st.data.map Prod.fst).Nodup) :
    getData (CacheService.invalidate cs c).st.data (generateCacheKey c) = none := by
  unfold CacheService.invalidate ncDel
  cases hg : getData cs.st.data (generateCacheKey c) with
  | some e =>
    simp only [hg]
    exact getData_eraseData_self _ _ hnd
  | none => simpa [hg] using hg

/-! ### Digest sanity anchor -/

/-- The NIST SHA-256 test vector for "abc", anchoring the digest model. -/
theorem sha256Hex_abc :
    sha256Hex "abc" = "ba7816bf8f01cfea414140de5dae2223b00361a396177a9cb410ff61f20015ad" := by
  decide

/-! ### Claim theorems -/

/-- C1.  The claim states that normalization is recursive and
order-insensitive at every depth, so permuting the keys of a nested
mapping leaves the normalized form and the cache key unchanged.  On the
code this is false: `generateCacheKey` sorts only the top-level entries,
so permuting the keys of the nested `yearRange` mapping (the input shape
of the repository test "should handle nested arrays and objects") yields
a different normalized serialization and a different SHA-256 key. -/
theorem c1_nested_permutation_changes_key :
    stringifyObj (sortedCriteria nestedCritB) ≠ stringifyObj (sortedCriteria nestedCritA) ∧
    generateCacheKey nestedCritB ≠ generateCacheKey nestedCritA := by
  constructor <;> decide

/-- C2.  The claim states that under kind "playlist", `set` with criteria
genres ["rock","indie"], mood "energetic" followed by `get` with criteria
mood "energetic", genres ["indie","rock"] returns the stored value.  On
the code this is false: the tagged descriptor nests the criteria under
the "criteria" property, below the only level `generateCacheKey`
normalizes, so the second descriptor hashes differently and the `get`
misses (while the verbatim first descriptor still hits). -/
theorem c2_tagged_scenario_misses :
    (CacheService.set 0 defaultCache taggedKey1 storedVal).isOk = true ∧
    (CacheService.get 0 taggedCache taggedKey1).1 = some storedVal ∧
    (CacheService.get 0 taggedCache taggedKey2).1 = none :=
  ⟨rfl, rfl, rfl⟩

/-- C3 counterexample.  With `maxKeys:1`, one `set` fills the cache and a
second `set` under a fresh key raises ECACHEFULL instead of evicting the
oldest entry, so `set` is not total as claimed. -/
theorem c3_counterexample :
    (CacheService.set 0 tinyCache moodCalm (.str "v1")).isOk = true ∧
    (CacheService.getStats tinyFull).keys = 1 ∧
    CacheService.set 1 tinyFull moodHappy (.str "v2") = .error "ECACHEFULL" :=
  ⟨rfl, rfl, rfl⟩

/-- C3 amended.  `set` succeeds (and never raises) exactly while the
insertion keeps the entry count within `maxKeys` or `maxKeys` is
unlimited (≤ -1); when the capacity guard trips, `set` raises ECACHEFULL
and evicts nothing. -/
theorem c3_amended_set_capacity (cs : CacheService) (now : Nat) (c : JSObject) (v : JSValue) :
    (cs.opts.maxKeys ≤ -1 ∨ (cs.st.data.length : Int) + 1 ≤ cs.opts.maxKeys →
      ∃ cs1, CacheService.set now cs c v = .ok cs1) ∧
    (cs.opts.maxKeys > -1 → (cs.st.data.length : Int) + 1 > cs.opts.maxKeys →
      CacheService.set now cs c v = .error "ECACHEFULL") := by
  constructor
  · intro h
    have hguard : ¬(cs.opts.maxKeys > -1 ∧ (cs.st.data.length : Int) + 1 > cs.opts.maxKeys) := by
      rcases h with h | h
      · rintro ⟨h1, _⟩; omega
      · rintro ⟨_, h2⟩; omega
    obtain ⟨st1, hst⟩ := ncSet_ok_of_room (generateCacheKey c) v hguard
    exact ⟨⟨cs.opts, st1⟩, by unfold CacheService.set; rw [hst]⟩
  · intro h1 h2
    unfold CacheService.set ncSet
    rw [if_pos ⟨h1, h2⟩]

/-- Witness for the amended C3 theorem at concrete inputs. -/
theorem c3_amended_witness :
    (∃ cs1, CacheService.set 0 defaultCache moodCalm (.str "A") = .ok cs1) ∧
    CacheService.set 1 tinyFull moodHappy (.str "v2") = .error "ECACHEFULL" :=
  ⟨(c3_amended_set_capacity defaultCache 0 moodCalm (.str "A")).1 (by decide),
   (c3_amended_set_capacity tinyFull 1 moodHappy (.str "v2")).2 (by decide) (by decide)⟩

/-- C5 counterexample.  With `maxKeys:1`, `set(k,v1)` succeeds but the
overwriting `set(k,v2)` is rejected by the capacity guard (node-cache
checks capacity before checking whether the key already exists), so the
claimed overwrite `get(k) == v2` fails: `get(k)` still returns `v1`. -/
theorem c5_counterexample :
    (CacheService.set 0 tinyCache moodCalm (.str "v1")).isOk = true ∧
    CacheService.set 5 tinyFull moodCalm (.str "v2") = .error "ECACHEFULL" ∧
    (CacheService.get 5 (CacheService.setD 5 tinyFull moodCalm (.str "v2")) moodCalm).1 =
      some (.str "v1") ∧
    JSValue.str "v1" ≠ JSValue.str "v2" := by
  refine ⟨rfl, rfl, rfl, ?_⟩
  intro h
  injection h with h1
  exact absurd h1 (by decide)

/-- C5 amended.  At most one entry exists per normalized key (the key
list stays duplicate-free under set), and whenever the two sets do not
hit the ECACHEFULL capacity guard, `set(k,v1); set(k,v2)` overwrites in
place: a live `get(k)` yields `v2`, the entry count does not grow, and
the second set restarted the TTL from its own call time (the expiry used
below is computed from `now2`). -/
theorem c5_amended_overwrite (cs cs1 cs2 : CacheService)
    (now1 now2 now3 : Nat) (c : JSObject) (v1 v2 : JSValue)
    (h1 : CacheService.set now1 cs c v1 = .ok cs1)
    (h2 : CacheService.set now2 cs1 c v2 = .ok cs2)
    (hnd : (cs.st.data.map Prod.fst).Nodup)
    (hlive : cs.opts.stdTTL = 0 ∨ now3 ≤ now2 + cs.opts.stdTTL * 1000) :
    (CacheService.get now3 cs2 c).1 = some v2 ∧
    cs2.st.data.length = cs1.st.data.length ∧
    (cs2.st.data.map Prod.fst).Nodup := by
  obtain ⟨hopts1, hst1⟩ := set_ok_spec h1
  obtain ⟨hopts2, hst2⟩ := set_ok_spec h2
  obtain ⟨hself1, _, hndp1, _, _⟩ := ncSet_ok_spec hst1
  obtain ⟨hself2, _, hndp2, hlen2, _⟩ := ncSet_ok_spec hst2
  refine ⟨?_, hlen2 (by simp [hself1]), hndp2 (hndp1 hnd)⟩
  rw [get_fst]
  simp only [hself2]
  rw [hopts1]
  unfold ncWrapT
  by_cases h0 : cs.opts.stdTTL = 0
  · simp [h0]
  · rw [if_neg h0]
    have hle : now3 ≤ now2 + cs.opts.stdTTL * 1000 := hlive.resolve_left h0
    have hnlt : ¬(now2 + cs.opts.stdTTL * 1000 < now3) := by omega
    simp [hnlt]

/-- Witness for the amended C5 theorem at concrete inputs. -/
theorem c5_amended_witness :
    (CacheService.get 6 overwritten moodCalm).1 = some (.str "v2") ∧
    overwritten.st.data.length = onceSet.st.data.length ∧
    (overwritten.st.data.map Prod.fst).Nodup :=
  c5_amended_overwrite defaultCache onceSet overwritten 0 5 6 moodCalm (.str "v1") (.str "v2")
    rfl rfl (by decide) (by decide)

/-- C6 counterexample.  The claim says an entry expires as soon as
`now − insertedAt ≥ ttl`; with ttl = 1 time-unit (stdTTL 1 second) a
`get` exactly one unit (1000 ms) after the set must be absent.  The code
expires strictly (`t < now`), so the entry is still returned. -/
theorem c6_counterexample :
    ttlStored.opts.stdTTL = 1 ∧
    (CacheService.set 0 ttlCache moodCalm (.str "v")).isOk = true ∧
    (CacheService.get 1000 ttlStored moodCalm).1 = some (.str "v") :=
  ⟨rfl, rfl, rfl⟩

/-- C6 amended.  An entry stored at `now0` with nonzero stdTTL is
logically absent from `get` exactly when `now − insertedAt` strictly
exceeds the ttl (`now1 > now0 + stdTTL·1000` in milliseconds), and
returned while `now1 ≤ now0 + stdTTL·1000`. -/
theorem c6_amended_expiry (cs cs1 : CacheService) (now0 now1 : Nat)
    (c : JSObject) (v : JSValue)
    (hset : CacheService.set now0 cs c v = .ok cs1)
    (httl : cs.opts.stdTTL ≠ 0) :
    (CacheService.get now1 cs1 c).1 =
      if now0 + cs.opts.stdTTL * 1000 < now1 then none else some v := by
  obtain ⟨hopts, hst⟩ := set_ok_spec hset
  obtain ⟨hself, _, _, _, _⟩ := ncSet_ok_spec hst
  rw [get_fst]
  simp only [hself]
  unfold ncWrapT
  rw [if_neg httl]
  have hne : now0 + cs.opts.stdTTL * 1000 ≠ 0 := by omega
  by_cases hlt : now0 + cs.opts.stdTTL * 1000 < now1
  · rw [if_pos ⟨hne, hlt⟩, if_pos hlt]
  · rw [if_neg (fun hc => hlt hc.2), if_neg hlt]

/-- Witness for the amended C6 theorem at concrete inputs (1001 ms after
a set with stdTTL 1: strictly past the boundary). -/
theorem c6_amended_witness :
    (CacheService.get 1001 ttlStored moodCalm).1 =
      if 0 + ttlCache.opts.stdTTL * 1000 < 1001 then none else some (.str "v") :=
  c6_amended_expiry ttlCache ttlStored 0 1001 moodCalm (.str "v") rfl (by decide)

/-- C7.  Cross-key independence and invalidation: a `set` under one key
leaves the `get` result of every differently-normalized key unchanged
(also when the set is rejected at capacity); `set` then `invalidate`
makes the key absent; and `invalidate` of an absent key is a no-op. -/
theorem c7_frame_and_invalidate (cs : CacheService) (now1 now2 now3 : Nat)
    (c1 c2 c : JSObject) (v : JSValue) :
    (generateCacheKey c1 ≠ generateCacheKey c2 →
      (CacheService.get now2 (CacheService.setD now1 cs c1 v) c2).1 =
        (CacheService.get now2 cs c2).1) ∧
    ((cs.st.data.map Prod.fst).Nodup →
      (CacheService.get now3
        (CacheService.invalidate (CacheService.setD now1 cs c v) c) c).1 = none) ∧
    (getData cs.st.data (generateCacheKey c) = none →
      CacheService.invalidate cs c = cs) := by
  refine ⟨?_, ?_, ?_⟩
  · intro hne
    rw [get_fst, get_fst, setD_getData_ne now1 cs c1 v (Ne.symm hne)]
  · intro hnd
    rw [get_fst, invalidate_getData_self _ _ (setD_data_nodup now1 cs c v hnd)]
  · intro habs
    unfold CacheService.invalidate ncDel
    simp only [habs]

/-- Witness for the C7 theorem at concrete inputs. -/
theorem c7_witness :
    ((CacheService.get 1 (CacheService.setD 0 defaultCache moodCalm (.str "a")) moodHappy).1 =
      (CacheService.get 1 defaultCache moodHappy).1) ∧
    ((CacheService.get 1 (CacheService.invalidate
        (CacheService.setD 0 defaultCache moodCalm (.str "a")) moodCalm) moodCalm).1 = none) ∧
    CacheService.invalidate defaultCache moodCalm = defaultCache := by
  obtain ⟨ha, hb, hc⟩ :=
    c7_frame_and_invalidate defaultCache 0 1 1 moodCalm moodHappy moodCalm (.str "a")
  exact ⟨ha (by decide), hb (by decide), hc rfl⟩

/-- C8.  `clear()` resets the statistics together with the entries:
immediately afterwards `getStats()` reports zero keys, zero hits and zero
misses (node-cache `flushAll` zeroes its stats record). -/
theorem c8_clear_resets_stats (cs : CacheService) :
    (CacheService.getStats (CacheService.clear cs)).keys = 0 ∧
    (CacheService.getStats (CacheService.clear cs)).hits = 0 ∧
    (CacheService.getStats (CacheService.clear cs)).misses = 0 :=
  ⟨rfl, rfl, rfl⟩

/-- C9.  A top-level field bound to `undefined` (inserted at any
position) does not contribute to the cache key: `Object.entries` lists
it and the sort keeps it, but `JSON.stringify` omits
`undefined`-valued properties, so the canonical serialization — and
hence the SHA-256 key and the behaviour of `get`/`set` — coincides with
that of the criteria without the field. -/
theorem c9_undefined_field_immaterial (l1 l2 : JSObject) (f : String)
    (_hf : f ∉ (l1 ++ l2).map Prod.fst) :
    generateCacheKey (l1 ++ (f, JSValue.undef) :: l2) = generateCacheKey (l1 ++ l2) ∧
    (∀ now cs, CacheService.get now cs (l1 ++ (f, JSValue.undef) :: l2) =
      CacheService.get now cs (l1 ++ l2)) ∧
    (∀ now cs v, CacheService.set now cs (l1 ++ (f, JSValue.undef) :: l2) v =
      CacheService.set now cs (l1 ++ l2) v) := by
  have hkey : generateCacheKey (l1 ++ (f, JSValue.undef) :: l2) =
      generateCacheKey (l1 ++ l2) := by
    unfold generateCacheKey stringifyObj
    rw [serializeFields_sortedCriteria_append_undef]
  exact ⟨hkey, fun now cs => by unfold CacheService.get; rw [hkey],
    fun now cs v => by unfold CacheService.set; rw [hkey]⟩

/-- Witness for the C9 theorem at concrete inputs. -/
theorem c9_witness :
    generateCacheKey ([("mood", JSValue.str "energetic")] ++ ("tempo", JSValue.undef) :: []) =
      generateCacheKey ([("mood", JSValue.str "energetic")] ++ []) :=
  (c9_undefined_field_immaterial [("mood", JSValue.str "energetic")] [] "tempo" (by decide)).1

/-- C10.  Key generation is a pure function of the criteria value:
structurally equal criteria always produce the same SHA-256 hex key (no
hidden state enters `generateCacheKey`), and consequently a `get` whose
criteria are structurally equal to those of a prior successful `set`
addresses the same physical entry and returns the stored value while the
entry is live. -/
theorem c10_key_deterministic (c1 c2 : JSObject) (cs cs1 : CacheService) (v : JSValue)
    (now0 now1 : Nat) (heq : c1 = c2)
    (hset : CacheService.set now0 cs c1 v = .ok cs1)
    (hlive : cs.opts.stdTTL = 0 ∨ now1 ≤ now0 + cs.opts.stdTTL * 1000) :
    generateCacheKey c1 = generateCacheKey c2 ∧
    (CacheService.get now1 cs1 c2).1 = some v := by
  subst heq
  obtain ⟨hopts, hst⟩ := set_ok_spec hset
  obtain ⟨hself, _, _, _, _⟩ := ncSet_ok_spec hst
  refine ⟨rfl, ?_⟩
  rw [get_fst]
  simp only [hself]
  unfold ncWrapT
  by_cases h0 : cs.opts.stdTTL = 0
  · simp [h0]
  · rw [if_neg h0]
    have hle : now1 ≤ now0 + cs.opts.stdTTL * 1000 := hlive.resolve_left h0
    have hnlt : ¬(now0 + cs.opts.stdTTL * 1000 < now1) := by omega
    simp [hnlt]

/-- Witness for the C10 theorem at concrete inputs. -/
theorem c10_witness :
    generateCacheKey moodCalm = generateCacheKey moodCalm ∧
    (CacheService.get 5 roundtripCache moodCalm).1 = some (.str "r") :=
  c10_key_deterministic moodCalm moodCalm defaultCache roundtripCache (.str "r") 0 5
    rfl rfl (by decide)
